import Mathlib

/-!
Shallow embedding of the livedemo session orchestrator
(file livedemo/__main__.py).

The program drives a child interpreter inside a pty.  The observable
effects relevant to the claims are modelled as a state record threaded
through pure Lean functions, one per Python function, keeping the
source names.  The environment (operator keyboard bytes, the stream of
random.random() draws, child liveness) is an explicit parameter.

Modelling conventions:
  * a byte is a Nat (0..255);
  * random.random() draws are rationals, assumed in [0, 1) where a
    claim needs it;
  * the single pty pair of a session is implicit: input_char appends
    the injected byte to the slave input queue (ioctl TIOCSTI);
  * time.sleep(d) is recorded by appending d to a log of sleeps;
  * the operator terminal mode attributes (termios lflag of stdin) are
    a Nat; tty.setraw is abstracted (read_char restores the saved
    attributes in its finally block, so the exact raw bits never
    matter);
  * the Python expression delay-fn() where the passed value is the
    string returned by read_char() raises TypeError; fallible calls
    therefore return the state paired with an optional error.
-/

/-- Python runtime errors that the embedded code can raise.  The only
one reachable in this program is TypeError, raised when a non-callable
value is called. -/
inductive PyError where
  | typeError
deriving DecidableEq

/-- File descriptors a spawned child can have its stdio bound to. -/
inductive Fd where
  | master
  | slave
  | operatorStdin
deriving DecidableEq

/-- Record of one subprocess.Popen call: the argv list and the
bindings of the three standard streams. -/
structure SpawnRec where
  argv : List String
  stdin : Fd
  stdout : Fd
  stderr : Fd
deriving DecidableEq

/-- The external environment of one session: the bytes the operator
types (sys.stdin.read(1) results), the random.random() draws, the
results of successive non-blocking liveness polls (an exhausted list
means the child is dead), and whether the blocking p.wait() call ever
returns (false models a child that never exits). -/
structure Env where
  keys : Nat → Nat
  rng : Nat → ℚ
  alive : List Bool
  waitReturns : Bool

/-- Observable state of one session: positions into the key / rng /
liveness streams, the slave terminal input queue (bytes injected via
TIOCSTI), the log of sleeps performed, the operator terminal mode
attributes, the spawned children, the shell commands run via
os.system, and the relay stop flag. -/
structure St where
  kpos : Nat
  rpos : Nat
  apos : Nat
  slaveQueue : List Nat
  sleeps : List ℚ
  opAttrs : Nat
  spawns : List SpawnRec
  shellCmds : List String
  eventSet : Bool
deriving DecidableEq

/-- The termios ECHO bit (0o10 on Linux). -/
def ECHO : Nat := 8

/-- Models tty.setraw on the operator terminal.  The precise raw-mode
bits are irrelevant to every claim because read_char restores the
saved attributes in its finally block; we abstract them as 0. -/
def setraw_attrs : Nat → Nat := fun _ => 0

/-- Source input_char: fcntl.ioctl(slave_fd, termios.TIOCSTI, ch)
pushes one byte into the slave terminal input queue. -/
def input_char (st : St) (ch : Nat) : St :=
  {st with slaveQueue := st.slaveQueue ++ [ch]}

/-- Source read_char: save the stdin attributes, switch stdin to raw
mode, read one byte, restore the saved attributes (finally block). -/
def read_char (env : Env) (st : St) : Nat × St :=
  let attrs := st.opAttrs
  let st1 := {st with opAttrs := setraw_attrs st.opAttrs}
  let ch := env.keys st1.kpos
  let st2 := {st1 with kpos := st1.kpos + 1}
  (ch, {st2 with opAttrs := attrs})

/-- Source toggle_echo: read the terminal attributes, XOR the ECHO bit
into the lflag word, apply immediately.  run_demo always applies it to
the operator terminal (sys.stdin). -/
def toggle_echo (st : St) : St :=
  {st with opAttrs := st.opAttrs ^^^ ECHO}

/-- The value bound to the delay-fn parameter of input_string_generic.
The timed variant is the lambda sleeping random.random() / rate; the
notCallable variant is the string value that input_string_interactive
actually passes (it calls read_char() instead of passing the function),
so invoking it raises TypeError. -/
inductive DelayFn where
  | timed (rate : ℚ)
  | notCallable (s : Nat)

/-- Invoke the delay value once, as the loop body of
input_string_generic does. -/
def callDelay (env : Env) : DelayFn → St → St × Option PyError
  | .timed rate, st =>
      ({st with rpos := st.rpos + 1,
                sleeps := st.sleeps ++ [env.rng st.rpos / rate]}, none)
  | .notCallable _, st => (st, some .typeError)

/-- The loop of input_string_generic: for each byte, invoke the delay
value, then inject the byte; a raised error propagates. -/
def input_string_genericAux (env : Env) (delay : DelayFn) :
    List Nat → St → St × Option PyError
  | [], st => (st, none)
  | ch :: rest, st =>
      let r := callDelay env delay st
      match r.2 with
      | some e => (r.1, some e)
      | none => input_string_genericAux env delay rest (input_char r.1 ch)

/-- Source input_string_generic: first an unconditional read_char()
(one operator keypress consumed before any byte of the command), then
the per-byte loop. -/
def input_string_generic (env : Env) (b : List Nat) (delay : DelayFn)
    (st : St) : St × Option PyError :=
  let r := read_char env st
  input_string_genericAux env delay b r.2

/-- Source input_string_interactive: Python evaluates the argument
read_char() eagerly, consuming one keypress, and passes the resulting
string as the delay value. -/
def input_string_interactive (env : Env) (b : List Nat) (st : St) :
    St × Option PyError :=
  let r := read_char env st
  input_string_generic env b (.notCallable r.1) r.2

/-- Source input_string_noninteractive: the delay value is the lambda
time.sleep(random.random() / rate). -/
def input_string_noninteractive (env : Env) (b : List Nat) (rate : ℚ)
    (st : St) : St × Option PyError :=
  input_string_generic env b (.timed rate) st

/-- Source is_alive: p.wait(0) inside try, returning True on
TimeoutExpired.  One non-blocking liveness poll, consuming one entry
of the poll-result stream. -/
def is_alive (env : Env) (st : St) : Bool × St :=
  (env.alive.getD st.apos false, {st with apos := st.apos + 1})

/-- The while loop of interact, unrolled over the remaining liveness
poll results (is_alive is inlined: each iteration consumes one poll;
an exhausted list reads as dead, ending the loop). -/
def interactAux (env : Env) : List Bool → St → St
  | [], st => {st with apos := st.apos + 1}
  | a :: rest, st =>
      let st1 := {st with apos := st.apos + 1}
      if a then
        let r := read_char env st1
        interactAux env rest (input_char r.2 r.1)
      else st1

/-- Source interact: while is_alive(p): read one operator byte and
inject it. -/
def interact (env : Env) (st : St) : St :=
  interactAux env (env.alive.drop st.apos) st

/-- How one run of the splice_master loop ended. -/
inductive RelayExit where
  | eventSet
  | readFailed
deriving DecidableEq

/-- Source splice_master: while not end_event.is_set(): copy one byte
from the master to stdout.  Arguments: whether the event is set when
iteration i tests it, the result of the read at iteration i (none is
a failing read, whose exception ends the thread), fuel, and the
iteration index.  Returns none when the fuel runs out before the loop
ends, otherwise how it ended and the bytes copied. -/
def splice_master (event : Nat → Bool) (master : Nat → Option Nat) :
    Nat → Nat → Option (RelayExit × List Nat)
  | 0, _ => none
  | fuel + 1, i =>
      if event i then some (.eventSet, [])
      else
        match master i with
        | none => some (.readFailed, [])
        | some b =>
            match splice_master event master fuel (i + 1) with
            | none => none
            | some p => some (p.1, b :: p.2)

/-- Result of one run_demo call: normal completion, blocking forever
in p.wait() because the child never exits, or an uncaught Python
exception propagating out of the playback loop. -/
inductive Outcome where
  | completed (st : St)
  | hung (st : St)
  | crashed (e : PyError) (st : St)
deriving DecidableEq

/-- The state carried by an outcome (the trace up to that point). -/
def Outcome.st : Outcome → St
  | .completed s => s
  | .hung s => s
  | .crashed _ s => s

/-- True exactly on the hung outcome. -/
def Outcome.isHung : Outcome → Bool
  | .hung _ => true
  | _ => false

/-- True exactly on the completed outcome. -/
def Outcome.isCompleted : Outcome → Bool
  | .completed _ => true
  | _ => false

/-- The playback loop of run_demo: for each command, one
input_string_interactive or input_string_noninteractive call; a
raised error propagates.  No liveness poll appears in this loop. -/
def playCommands (env : Env) (is_interactive : Bool) (rate : ℚ) :
    List (List Nat) → St → St × Option PyError
  | [], st => (st, none)
  | c :: rest, st =>
      let r := if is_interactive then input_string_interactive env c st
               else input_string_noninteractive env c rate st
      match r.2 with
      | some e => (r.1, some e)
      | none => playCommands env is_interactive rate rest r.1

/-- Source run_demo.  In order: os.system clear, Popen of
[interpreter] with all three standard streams bound to the pty slave,
relay thread start (modelled separately by splice_master), toggle echo
on stdin, the playback loop, the optional interact hand-off, setting
the relay stop event, the blocking p.wait(), injection of one space
byte to release the relay thread, toggle echo back.  No terminating
command is ever injected: if the child never exits on its own, the
wait blocks forever (outcome hung). -/
def run_demo (env : Env) (interpreter : String)
    (commands : List (List Nat)) (is_interactive : Bool) (rate : ℚ)
    (keep : Bool) (st : St) : Outcome :=
  let stA := {st with shellCmds := st.shellCmds ++ ["clear"]}
  let stB := {stA with
    spawns := stA.spawns ++ [⟨[interpreter], .slave, .slave, .slave⟩]}
  let stC := toggle_echo stB
  let r := playCommands env is_interactive rate commands stC
  match r.2 with
  | some e => .crashed e r.1
  | none =>
      let st2 := if keep then interact env r.1 else r.1
      let st3 := {st2 with eventSet := true}
      if env.waitReturns then
        .completed (toggle_echo (input_char st3 32))
      else .hung st3

/-- Python bytes.isspace: true iff nonempty and every byte is ASCII
whitespace (space, tab, newline, carriage return, vertical tab, form
feed). -/
def pyIsSpace (b : List Nat) : Bool :=
  !b.isEmpty &&
    b.all (fun c => c == 32 || c == 9 || c == 10 || c == 13 || c == 11 || c == 12)

/-- Python bytes.splitlines(keepends=True) over the line breaks the
bytes version recognises: CRLF, CR, LF. -/
def splitlinesAux : List Nat → List Nat → List (List Nat)
  | [], acc => if acc.isEmpty then [] else [acc.reverse]
  | 13 :: 10 :: rest, acc => (acc.reverse ++ [13, 10]) :: splitlinesAux rest []
  | 13 :: rest, acc => (acc.reverse ++ [13]) :: splitlinesAux rest []
  | 10 :: rest, acc => (acc.reverse ++ [10]) :: splitlinesAux rest []
  | c :: rest, acc => splitlinesAux rest (c :: acc)

/-- The script-splitting step of main:
script_path.read_bytes().splitlines(keepends=True). -/
def splitlines_keepends (data : List Nat) : List (List Nat) :=
  splitlinesAux data []

/-- The argparse default of the remove-empty option. -/
def remove_empty_default : Bool := true

/-- Value of args.remove_empty: a store-true action sets True when the
flag is present and falls back to the default (also True) when it is
absent, so the value is True either way. -/
def remove_empty_value (present : Bool) : Bool :=
  if present then true else remove_empty_default

/-- The script main hands to run_demo: split into lines with line
endings kept, then, when args.remove_empty holds, drop the
whitespace-only lines. -/
def main_commands (data : List Nat) (removeEmptyFlag : Bool) :
    List (List Nat) :=
  let commands := splitlines_keepends data
  if remove_empty_value removeEmptyFlag then
    commands.filter (fun c => !(pyIsSpace c))
  else commands

/-- Initial session state with the given operator terminal
attributes. -/
def initSt (a : Nat) : St :=
  ⟨0, 0, 0, [], [], a, [], [], false⟩

/-- Concrete environment: the operator holds the space bar, every
random draw is 0, the child is already dead (no poll reports alive)
and p.wait() returns at once. -/
def env0 : Env := ⟨fun _ => 32, fun _ => 0, [], true⟩

/-- Concrete environment whose child stays alive forever: liveness
polls report alive and p.wait() never returns. -/
def envNoExit : Env := ⟨fun _ => 32, fun _ => 0, [true, true, true], false⟩

/-- Sleep durations performed by the timed delay over one byte string,
starting at position r of the random stream. -/
def timedSleeps (env : Env) (rate : ℚ) : Nat → List Nat → List ℚ
  | _, [] => []
  | r, _ :: rest => env.rng r / rate :: timedSleeps env rate (r + 1) rest

/-- Sleep durations performed by timed playback of a command list,
starting at position r of the random stream. -/
def timedSleepsAll (env : Env) (rate : ℚ) : Nat → List (List Nat) → List ℚ
  | _, [] => []
  | r, c :: rest =>
      timedSleeps env rate r c ++ timedSleepsAll env rate (r + c.length) rest

lemma read_char_eq (env : Env) (st : St) :
    read_char env st = (env.keys st.kpos, {st with kpos := st.kpos + 1}) := rfl

lemma input_string_genericAux_timed (env : Env) (rate : ℚ) (b : List Nat)
    (st : St) :
    input_string_genericAux env (.timed rate) b st =
      ({st with rpos := st.rpos + b.length,
                slaveQueue := st.slaveQueue ++ b,
                sleeps := st.sleeps ++ timedSleeps env rate st.rpos b}, none) := by
  induction b generalizing st with
  | nil => simp [input_string_genericAux, timedSleeps]
  | cons ch rest ih =>
      simp only [input_string_genericAux, callDelay, input_char]
      rw [ih]
      simp [timedSleeps, St.mk.injEq, List.append_assoc]
      omega

lemma input_string_noninteractive_eq (env : Env) (b : List Nat) (rate : ℚ)
    (st : St) :
    input_string_noninteractive env b rate st =
      ({st with kpos := st.kpos + 1,
                rpos := st.rpos + b.length,
                slaveQueue := st.slaveQueue ++ b,
                sleeps := st.sleeps ++ timedSleeps env rate st.rpos b}, none) := by
  simp only [input_string_noninteractive, input_string_generic, read_char_eq]
  rw [input_string_genericAux_timed]

lemma input_string_interactive_eq (env : Env) (b : List Nat) (st : St) :
    input_string_interactive env b st =
      match b with
      | [] => ({st with kpos := st.kpos + 2}, none)
      | _ :: _ => ({st with kpos := st.kpos + 2}, some .typeError) := by
  cases b <;> rfl

lemma playCommands_timed (env : Env) (rate : ℚ) (commands : List (List Nat))
    (st : St) :
    playCommands env false rate commands st =
      ({st with kpos := st.kpos + commands.length,
                rpos := st.rpos + (commands.map List.length).sum,
                slaveQueue := st.slaveQueue ++ commands.flatten,
                sleeps := st.sleeps ++ timedSleepsAll env rate st.rpos commands},
       none) := by
  induction commands generalizing st with
  | nil => simp [playCommands, timedSleepsAll]
  | cons c rest ih =>
      simp only [playCommands, Bool.false_eq_true, if_false,
        input_string_noninteractive_eq]
      rw [ih]
      simp [timedSleepsAll, St.mk.injEq, List.append_assoc]
      omega

lemma playCommands_frame (env : Env) (inter : Bool) (rate : ℚ)
    (commands : List (List Nat)) (st : St) :
    (playCommands env inter rate commands st).1.opAttrs = st.opAttrs ∧
    (playCommands env inter rate commands st).1.spawns = st.spawns ∧
    (playCommands env inter rate commands st).1.apos = st.apos ∧
    (playCommands env inter rate commands st).1.shellCmds = st.shellCmds ∧
    (playCommands env inter rate commands st).1.eventSet = st.eventSet := by
  induction commands generalizing st with
  | nil => simp [playCommands]
  | cons c rest ih =>
      cases inter with
      | false => simp [playCommands, input_string_noninteractive_eq, ih]
      | true =>
          cases c with
          | nil => simp [playCommands, input_string_interactive_eq, ih]
          | cons x xs => simp [playCommands, input_string_interactive_eq]

lemma interactAux_frame (env : Env) (l : List Bool) (st : St) :
    (interactAux env l st).opAttrs = st.opAttrs ∧
    (interactAux env l st).spawns = st.spawns ∧
    (interactAux env l st).shellCmds = st.shellCmds ∧
    (interactAux env l st).eventSet = st.eventSet := by
  induction l generalizing st with
  | nil => simp [interactAux]
  | cons a rest ih =>
      cases a <;> simp [interactAux, read_char_eq, input_char, ih]

lemma toggle_echo_toggle_echo (st : St) : toggle_echo (toggle_echo st) = st := by
  cases st
  simp [toggle_echo, Nat.xor_cancel_right]

lemma playCommands_opAttrs (env : Env) (inter : Bool) (rate : ℚ)
    (commands : List (List Nat)) (st : St) :
    (playCommands env inter rate commands st).1.opAttrs = st.opAttrs :=
  (playCommands_frame env inter rate commands st).1

lemma playCommands_spawns (env : Env) (inter : Bool) (rate : ℚ)
    (commands : List (List Nat)) (st : St) :
    (playCommands env inter rate commands st).1.spawns = st.spawns :=
  (playCommands_frame env inter rate commands st).2.1

lemma interact_opAttrs (env : Env) (st : St) :
    (interact env st).opAttrs = st.opAttrs :=
  (interactAux_frame env (env.alive.drop st.apos) st).1

lemma interact_spawns (env : Env) (st : St) :
    (interact env st).spawns = st.spawns :=
  (interactAux_frame env (env.alive.drop st.apos) st).2.1

lemma run_demo_completed_opAttrs (env : Env) (interp : String)
    (commands : List (List Nat)) (inter : Bool) (rate : ℚ) (keep : Bool)
    (st0 st' : St)
    (h : run_demo env interp commands inter rate keep st0 = Outcome.completed st') :
    st'.opAttrs = st0.opAttrs := by
  simp only [run_demo] at h
  split at h
  · simp at h
  · split at h
    · injection h with h
      subst h
      cases keep <;>
        simp [toggle_echo, input_char, playCommands_opAttrs, interact_opAttrs,
          Nat.xor_cancel_right, ECHO]
    · simp at h

lemma run_demo_spawns (env : Env) (interp : String)
    (commands : List (List Nat)) (inter : Bool) (rate : ℚ) (keep : Bool)
    (st0 : St) :
    (run_demo env interp commands inter rate keep st0).st.spawns =
      st0.spawns ++ [⟨[interp], Fd.slave, Fd.slave, Fd.slave⟩] := by
  simp only [run_demo]
  split
  · simp [Outcome.st, playCommands_spawns, toggle_echo]
  · split <;> cases keep <;>
      simp [Outcome.st, playCommands_spawns, interact_spawns, toggle_echo,
        input_char]

lemma timedSleeps_mem_bounds (env : Env) (rate : ℚ) (hr : 0 < rate)
    (hu : ∀ n, 0 ≤ env.rng n ∧ env.rng n < 1) (b : List Nat) :
    ∀ (r : Nat) (s : ℚ), s ∈ timedSleeps env rate r b → 0 ≤ s ∧ s < 1 / rate := by
  induction b with
  | nil => intro r s hs; simp [timedSleeps] at hs
  | cons x xs ih =>
      intro r s hs
      simp only [timedSleeps, List.mem_cons] at hs
      rcases hs with h | h
      · subst h
        exact ⟨div_nonneg (hu r).1 hr.le,
          (div_lt_div_iff_of_pos_right hr).mpr (hu r).2⟩
      · exact ih (r + 1) s h

/-- C1, counterexample.  With an empty script, handoff not requested
(keep = false) and a child that stays alive (p.wait never returns),
run_demo injects no byte at all into the slave input queue — in
particular no terminating exit line — and blocks forever in p.wait. -/
theorem C1_counterexample :
    (run_demo envNoExit "bash" [] false 2 false (initSt 0)).isHung = true ∧
    (run_demo envNoExit "bash" [] false 2 false (initSt 0)).st.slaveQueue = [] := by
  decide

/-- C1, amended.  When timed playback completes and handoff is not
requested, the orchestrator injects no synthetic terminating command:
the slave queue holds exactly the script bytes, and if the child never
exits on its own the session hangs in the blocking p.wait call. -/
theorem C1_no_exit_injected (env : Env) (interp : String)
    (commands : List (List Nat)) (rate : ℚ) (st0 : St)
    (hw : env.waitReturns = false) :
    ∃ st', run_demo env interp commands false rate false st0 = Outcome.hung st' ∧
      st'.slaveQueue = st0.slaveQueue ++ commands.flatten := by
  simp only [run_demo, playCommands_timed, hw, Bool.false_eq_true, if_false]
  exact ⟨_, rfl, by simp [toggle_echo]⟩

/-- C1, witness: a script whose single command is the line exit is
played verbatim and nothing further is injected; with a child that
never exits the session hangs. -/
theorem C1_no_exit_injected_witness :
    ∃ st', run_demo envNoExit "bash" [[101, 120, 105, 116, 10]] false 2 false
        (initSt 0) = Outcome.hung st' ∧
      st'.slaveQueue = [101, 120, 105, 116, 10] :=
  C1_no_exit_injected envNoExit "bash" [[101, 120, 105, 116, 10]] 2 (initSt 0) rfl

/-- C2, counterexample.  With a child that is dead from the very start
(every liveness poll would report dead), timed playback of the script
[ [120] ] still injects the command: apos = 0 shows no liveness poll
was ever made during the session, and the byte 120 is in the slave
queue, followed by the teardown space byte. -/
theorem C2_counterexample :
    (run_demo env0 "bash" [[120]] false 2 false (initSt 0)).isCompleted = true ∧
    (run_demo env0 "bash" [[120]] false 2 false (initSt 0)).st.apos = 0 ∧
    (run_demo env0 "bash" [[120]] false 2 false (initSt 0)).st.slaveQueue =
      [120, 32] := by
  decide

/-- C2, amended.  The playback loop performs no liveness check at all:
with keep unset and a timed session whose p.wait returns, every
command is injected regardless of child liveness (apos, the count of
liveness polls made, is unchanged), the whole script lands in the
slave queue, and teardown completes. -/
theorem C2_no_liveness_check (env : Env) (interp : String)
    (commands : List (List Nat)) (rate : ℚ) (st0 : St)
    (hw : env.waitReturns = true) :
    ∃ st', run_demo env interp commands false rate false st0 =
        Outcome.completed st' ∧
      st'.apos = st0.apos ∧
      st'.slaveQueue = st0.slaveQueue ++ commands.flatten ++ [32] := by
  simp only [run_demo, playCommands_timed, hw, Bool.false_eq_true, if_false,
    if_true]
  exact ⟨_, rfl, by simp [toggle_echo, input_char],
    by simp [toggle_echo, input_char, List.append_assoc]⟩

/-- C2, witness: concrete dead-child session in which both commands
are injected anyway and teardown completes. -/
theorem C2_no_liveness_check_witness :
    ∃ st', run_demo env0 "bash" [[120], [121]] false 2 false (initSt 0) =
        Outcome.completed st' ∧
      st'.apos = 0 ∧
      st'.slaveQueue = [120, 121, 32] :=
  C2_no_liveness_check env0 "bash" [[120], [121]] 2 (initSt 0) rfl

/-- C3, counterexample.  Timed injection of the one-byte command [120]
consumes one operator keypress (kpos goes from 0 to 1), contradicting
the claim that no operator keyboard input is consumed under timed
pacing: input_string_generic unconditionally calls read_char() before
the byte loop. -/
theorem C3_counterexample :
    (input_string_noninteractive env0 [120] 2 (initSt 0)).1.kpos = 1 ∧
    ¬ (input_string_noninteractive env0 [120] 2 (initSt 0)).1.kpos = 0 := by
  decide

/-- C3, amended.  Under timed pacing, exactly one operator keypress is
consumed before each command begins (the unconditional read_char in
input_string_generic); after that the command advances automatically:
every byte is injected, preceded by a sleep of random()/rate, and when
every random draw lies in [0, 1) and the rate is positive every sleep
lies in [0, 1/rate). -/
theorem C3_timed_pacing (env : Env) (b : List Nat) (rate : ℚ) (st : St)
    (hr : 0 < rate) (hu : ∀ n, 0 ≤ env.rng n ∧ env.rng n < 1) :
    (input_string_noninteractive env b rate st).2 = none ∧
    (input_string_noninteractive env b rate st).1.kpos = st.kpos + 1 ∧
    (input_string_noninteractive env b rate st).1.slaveQueue =
      st.slaveQueue ++ b ∧
    (input_string_noninteractive env b rate st).1.sleeps =
      st.sleeps ++ timedSleeps env rate st.rpos b ∧
    ∀ s ∈ timedSleeps env rate st.rpos b, 0 ≤ s ∧ s < 1 / rate := by
  refine ⟨?_, ?_, ?_, ?_,
    fun s hs => timedSleeps_mem_bounds env rate hr hu b st.rpos s hs⟩ <;>
    simp [input_string_noninteractive_eq]

/-- C3, witness: one concrete timed injection, with every conjunct of
the amended statement instantiated. -/
theorem C3_timed_pacing_witness :
    (input_string_noninteractive env0 [120] 2 (initSt 0)).2 = none ∧
    (input_string_noninteractive env0 [120] 2 (initSt 0)).1.kpos = 1 ∧
    (input_string_noninteractive env0 [120] 2 (initSt 0)).1.slaveQueue = [120] ∧
    (input_string_noninteractive env0 [120] 2 (initSt 0)).1.sleeps =
      timedSleeps env0 2 0 [120] ∧
    ∀ s ∈ timedSleeps env0 2 0 [120], 0 ≤ s ∧ s < 1 / 2 :=
  C3_timed_pacing env0 [120] 2 (initSt 0) (by norm_num)
    (fun n => by constructor <;> norm_num [env0])

/-- C4: evaluation at the failing input.  Interactive injection of the
nonempty command [120] raises TypeError before injecting anything:
input_string_interactive passes the string returned by read_char() as
the delay function, so the first per-byte call of the delay raises.
Two operator keypresses have been consumed by then. -/
theorem C4_interactive_typeerror :
    (input_string_interactive env0 [120] (initSt 0)).2 =
      some PyError.typeError ∧
    (input_string_interactive env0 [120] (initSt 0)).1.slaveQueue = [] ∧
    (input_string_interactive env0 [120] (initSt 0)).1.kpos = 2 := by
  decide

/-- C5: toggle_echo flips exactly the ECHO bit by XOR, so two calls
compose to the identity on the terminal attributes, and run_demo calls
it in a matched pair around the session: for every session that
reaches teardown (outcome completed), the operator terminal attributes
after teardown equal the attributes before session start, in every
pacing mode and with or without the keep hand-off. -/
theorem C5_attrs_round_trip :
    (∀ st : St, toggle_echo (toggle_echo st) = st) ∧
    ∀ (env : Env) (interp : String) (commands : List (List Nat))
      (inter : Bool) (rate : ℚ) (keep : Bool) (st0 st' : St),
      run_demo env interp commands inter rate keep st0 =
        Outcome.completed st' →
      st'.opAttrs = st0.opAttrs :=
  ⟨toggle_echo_toggle_echo,
   fun env interp commands inter rate keep st0 st' h =>
     run_demo_completed_opAttrs env interp commands inter rate keep st0 st' h⟩

/-- C5, witness: a concrete completed session starting with attributes
5 ends with attributes 5. -/
theorem C5_attrs_round_trip_witness :
    (run_demo env0 "bash" [] false 2 false (initSt 5)).st.opAttrs = 5 :=
  C5_attrs_round_trip.2 env0 "bash" [] false 2 false (initSt 5)
    ((run_demo env0 "bash" [] false 2 false (initSt 5)).st) (by decide)

/-- C6, counterexample.  The relay loop terminates with every read
succeeding: with the stop event set from iteration 1 on and a master
that always yields a byte, splice_master stops after copying one byte
because it observes the event, not because a read failed.  So the
relay does not terminate exactly on read failure: the designed stop
path is the end_event flag. -/
theorem C6_counterexample :
    splice_master (fun n => decide (1 ≤ n)) (fun _ => some 65) 2 0 =
      some (RelayExit.eventSet, [65]) ∧
    RelayExit.eventSet ≠ RelayExit.readFailed := by
  decide

/-- C6, amended.  The relay terminates when it observes the end event
set at the top of its loop (the normal path: the orchestrator sets the
flag and injects a space byte so the pending read returns), and a
failing read on the master also terminates it, via the propagating
exception. -/
theorem C6_relay_stop_paths (event : Nat → Bool) (master : Nat → Option Nat)
    (fuel i : Nat) :
    (event i = true →
      splice_master event master (fuel + 1) i = some (RelayExit.eventSet, [])) ∧
    (event i = false → master i = none →
      splice_master event master (fuel + 1) i =
        some (RelayExit.readFailed, [])) := by
  constructor
  · intro h; simp [splice_master, h]
  · intro h hm; simp [splice_master, h, hm]

/-- C6, witness: both stop paths at concrete inputs. -/
theorem C6_relay_stop_paths_witness :
    splice_master (fun n => decide (1 ≤ n)) (fun _ => some 65) 1 1 =
      some (RelayExit.eventSet, []) ∧
    splice_master (fun _ => false) (fun _ => none) 1 0 =
      some (RelayExit.readFailed, []) :=
  ⟨(C6_relay_stop_paths (fun n => decide (1 ≤ n)) (fun _ => some 65) 0 1).1
      (by decide),
   (C6_relay_stop_paths (fun _ => false) (fun _ => none) 0 0).2 rfl rfl⟩

/-- C7: every invocation of run_demo spawns exactly one child, whose
argv is the one-element list [interpreter] (no additional arguments)
and whose standard input, output and error are all bound to the pty
slave descriptor — on every outcome, in every mode.  The transient
shell run by os.system for the screen clear is recorded separately in
shellCmds and spawns no session child. -/
theorem C7_single_spawn (env : Env) (interp : String)
    (commands : List (List Nat)) (inter : Bool) (rate : ℚ) (keep : Bool)
    (a : Nat) :
    (run_demo env interp commands inter rate keep (initSt a)).st.spawns =
      [⟨[interp], Fd.slave, Fd.slave, Fd.slave⟩] := by
  rw [run_demo_spawns]
  simp [initSt]

/-- C8, counterexample.  Over a whole session, the bytes injected into
the slave input queue number one more than the script bytes: the
script [ [120] ] has total byte length 1, but the session injects two
bytes, the command byte and the teardown space that releases the relay
thread. -/
theorem C8_counterexample :
    (run_demo env0 "bash" [[120]] false 2 false (initSt 0)).st.slaveQueue.length
      = 2 ∧
    (([[120]] : List (List Nat)).map List.length).sum = 1 ∧ (2 : Nat) ≠ 1 := by
  decide

/-- C8, amended.  Under timed pacing the playback loop injects exactly
the sum of the byte lengths of all commands; the completed session
injects exactly one additional byte, the teardown space. -/
theorem C8_injection_count (env : Env) (interp : String) (rate : ℚ)
    (commands : List (List Nat)) (st0 : St) :
    (playCommands env false rate commands st0).1.slaveQueue.length =
      st0.slaveQueue.length + (commands.map List.length).sum ∧
    (env.waitReturns = true →
      ∃ st', run_demo env interp commands false rate false st0 =
          Outcome.completed st' ∧
        st'.slaveQueue.length =
          st0.slaveQueue.length + (commands.map List.length).sum + 1) := by
  constructor
  · rw [playCommands_timed]
    simp
  · intro hw
    simp only [run_demo, playCommands_timed, hw, Bool.false_eq_true, if_false,
      if_true]
    exact ⟨_, rfl, by simp [toggle_echo, input_char]; omega⟩

/-- C8, witness: playback of [ [120] ] injects one byte; the completed
session injects two. -/
theorem C8_injection_count_witness :
    (playCommands env0 false 2 [[120]] (initSt 0)).1.slaveQueue.length = 1 ∧
    ∃ st', run_demo env0 "bash" [[120]] false 2 false (initSt 0) =
        Outcome.completed st' ∧
      st'.slaveQueue.length = 2 :=
  ⟨(C8_injection_count env0 "bash" 2 [[120]] (initSt 0)).1,
   (C8_injection_count env0 "bash" 2 [[120]] (initSt 0)).2 rfl⟩

/-- C9, counterexample.  Injecting the empty command under timed
pacing consumes one operator keypress (kpos becomes 1, not 0), though
it injects no byte and performs no sleep: the unconditional read_char
in input_string_generic runs even for zero-byte commands. -/
theorem C9_counterexample :
    (input_string_noninteractive env0 [] 2 (initSt 0)).1.kpos = 1 ∧
    ¬ (input_string_noninteractive env0 [] 2 (initSt 0)).1.kpos = 0 ∧
    (input_string_noninteractive env0 [] 2 (initSt 0)).1.slaveQueue = [] ∧
    (input_string_noninteractive env0 [] 2 (initSt 0)).1.sleeps = [] := by
  decide

/-- C9, amended.  An empty command injects no byte, performs no sleep
and raises no error, but does consume operator input: one keypress
under timed pacing, two under interactive pacing (the eager read_char
call plus the one in input_string_generic; the broken delay value is
never invoked on a zero-byte command, so no TypeError). -/
theorem C9_empty_command (env : Env) (rate : ℚ) (st : St) :
    input_string_noninteractive env [] rate st =
      ({st with kpos := st.kpos + 1}, none) ∧
    input_string_interactive env [] st =
      ({st with kpos := st.kpos + 2}, none) := by
  constructor
  · simp [input_string_noninteractive_eq, timedSleeps]
  · simp [input_string_interactive_eq]

/-- C10: the remove-empty option is a store-true flag with default
True, so its parsed value is True whether or not the flag is given,
and the script main hands to run_demo therefore never contains a
whitespace-only command. -/
theorem C10_whitespace_filtered :
    (∀ present : Bool, remove_empty_value present = true) ∧
    ∀ (data : List Nat) (present : Bool) (c : List Nat),
      c ∈ main_commands data present → pyIsSpace c = false := by
  have hval : ∀ present : Bool, remove_empty_value present = true := by
    intro p; cases p <;> rfl
  refine ⟨hval, ?_⟩
  intro data present c hc
  simp only [main_commands, hval, if_true, List.mem_filter] at hc
  simpa using hc.2

/-- C10, witness: for the concrete script bytes of the two lines a and
a blank line, the surviving command [97, 10] is not whitespace. -/
theorem C10_whitespace_filtered_witness :
    pyIsSpace [97, 10] = false :=
  C10_whitespace_filtered.2 [97, 10, 32, 10] true [97, 10] (by decide)
